import Mathlib

/-!
Verification development for the cc-proxy routing and affinity engine.

The Rust sources are shallowly embedded:
* `src/cache_affinity.rs` — the TTL affinity store (`CacheAffinityManager`)
  becomes explicit state passing over an association list; the `f64` wall
  clock is modelled by exact rationals (seconds with fractional precision).
* `src/provider.rs` — `Provider`, `PlatformConfig`, `get_platform_config`.
* `src/router.rs` — `flatten_providers`, `provider_id`, `route_request`
  (the sticky attempt and ordered sweep), the validation and header
  sanitization in `try_provider`, and `error_response`.
* `src/server.rs` — `handle_request` (body-size guard and error wrapping).

Conventions: header maps are lists of (name, value) pairs, names in the
normalized lowercase form that axum/reqwest `HeaderMap`s store; upstream
attempts are an oracle `ResolvedProvider → Option α` (`none` = the attempt
failed, `some resp` = the validated response); gzip decompression is an
abstract function, only its routing is modelled.
-/

namespace CcProxy

/-! ### Affinity store (src/cache_affinity.rs) -/

/-- Record stored per affinity key: provider identity, absolute expiry
time in seconds, and an observability hit counter. -/
structure CacheAffinity where
  provider_id : String
  expire_at : ℚ
  request_count : Nat
deriving DecidableEq, Repr

/-- The store of `CacheAffinityManager`: a map from affinity key to record,
modelled as an association list with unique keys. -/
abbrev AffStore := List (String × CacheAffinity)

/-- Look a key up in the store. -/
def lookupAff (s : AffStore) (k : String) : Option CacheAffinity :=
  (s.find? (fun kv => kv.1 == k)).map (fun kv => kv.2)

/-- Remove a key from the store (`HashMap::remove`). -/
def removeAff (s : AffStore) (k : String) : AffStore :=
  s.filter (fun kv => !(kv.1 == k))

/-- Embeds `CacheAffinityManager::get`: absent key returns `none`; a record
with `now >= expire_at` is removed and `none` returned; otherwise the hit
counter is incremented and the provider identity returned.  The pair is
(returned value, store after the call). -/
def CacheAffinityManager.get (s : AffStore) (now : ℚ) (k : String) :
    Option String × AffStore :=
  match lookupAff s k with
  | none => (none, s)
  | some affinity =>
    if affinity.expire_at ≤ now then
      (none, removeAff s k)
    else
      (some affinity.provider_id,
       s.map (fun kv =>
         if kv.1 == k then
           (kv.1, { kv.2 with request_count := kv.2.request_count + 1 })
         else kv))

/-- Embeds `CacheAffinityManager::set`: insert or overwrite the record with
`expire_at = now + ttl` and `request_count = 1`. -/
def CacheAffinityManager.set (s : AffStore) (now : ℚ) (ttl : Nat)
    (k provider : String) : AffStore :=
  removeAff s k ++ [(k, ⟨provider, now + (ttl : ℚ), 1⟩)]

/-- Embeds `CacheAffinityManager::invalidate`: unconditional removal. -/
def CacheAffinityManager.invalidate (s : AffStore) (k : String) : AffStore :=
  removeAff s k

/-- Embeds one pass of the cleanup task body
(`store.retain(|_, affinity| affinity.expire_at > now)`). -/
def cleanup_sweep (s : AffStore) (now : ℚ) : AffStore :=
  s.filter (fun kv => now < kv.2.expire_at)

/-! ### Provider configuration (src/provider.rs) -/

/-- Per-platform configuration: endpoint URL and credential. -/
structure PlatformConfig where
  api_url : String
  api_key : String
deriving DecidableEq, Repr

/-- Raw provider entry as parsed from configuration. -/
structure Provider where
  enabled : Bool
  level : Int
  name : Option String
  api_url : Option String
  api_key : Option String
  codex : Option PlatformConfig
  claude : Option PlatformConfig
deriving DecidableEq, Repr

/-- Embeds `Provider::get_platform_config`: the per-kind sub-config when
present, else the shared endpoint/credential pair when both are present and
non-empty. -/
def Provider.get_platform_config (p : Provider) (kind : String) :
    Option PlatformConfig :=
  let platform_config : Option PlatformConfig :=
    match kind with
    | "codex" => p.codex
    | "claude" => p.claude
    | _ => none
  match platform_config with
  | some cfg => some cfg
  | none =>
    match p.api_url, p.api_key with
    | some url, some key =>
      if url ≠ "" ∧ key ≠ "" then some ⟨url, key⟩ else none
    | _, _ => none

/-- Resolved, ready-to-call provider endpoint (`ResolvedProvider` in
src/router.rs). -/
structure ResolvedProvider where
  kind : String
  api_url : String
  api_key : String
  name : Option String
  level : Int
deriving DecidableEq, Repr

/-- Embeds `Router::flatten_providers`: enabled entries only, one resolved
record per kind in `["codex", "claude"]` whose materialized config has a
non-empty URL and key, in configuration order. -/
def flatten_providers (providers : List Provider) : List ResolvedProvider :=
  (providers.filter (fun p => p.enabled)).flatMap (fun provider =>
    (["codex", "claude"] : List String).filterMap (fun kind =>
      match provider.get_platform_config kind with
      | some config =>
        if config.api_url ≠ "" ∧ config.api_key ≠ "" then
          some ⟨kind, config.api_url, config.api_key, provider.name,
                provider.level⟩
        else none
      | none => none))

/-- Modelled from the spec (§3, Resolved Provider): an enabled entry
materializes, per kind, the per-kind sub-config when one exists, otherwise
the shared endpoint/credential pair, and only when the chosen pair has a
non-empty endpoint URL and non-empty credential; disabled entries
contribute nothing.  Written from the spec's words, to be compared with
`flatten_providers`. -/
def resolvedSpec (providers : List Provider) : List ResolvedProvider :=
  providers.flatMap (fun provider =>
    if provider.enabled then
      (["codex", "claude"] : List String).filterMap (fun kind =>
        let chosen : Option PlatformConfig :=
          match (if kind = "codex" then provider.codex else provider.claude) with
          | some cfg => some cfg
          | none =>
            match provider.api_url, provider.api_key with
            | some url, some key => some ⟨url, key⟩
            | _, _ => none
        match chosen with
        | some cfg =>
          if cfg.api_url ≠ "" ∧ cfg.api_key ≠ "" then
            some ⟨kind, cfg.api_url, cfg.api_key, provider.name,
                  provider.level⟩
          else none
        | none => none)
    else [])

/-! ### Request parsing (serde_json values, src/router.rs step 1) -/

/-- Minimal JSON value model (serde_json `Value`); numbers are irrelevant to
the claims and carried as integers. -/
inductive Json where
  | null : Json
  | bool (b : Bool) : Json
  | num (n : Int) : Json
  | str (s : String) : Json
  | arr (xs : List Json) : Json
  | obj (fields : List (String × Json)) : Json

/-- serde_json indexing `value[key]`: `Null` when the value is not an object
or the key is missing. -/
def jsonIndex (j : Json) (key : String) : Json :=
  match j with
  | .obj fields =>
    match fields.find? (fun kv => kv.1 == key) with
    | some kv => kv.2
    | none => .null
  | _ => .null

/-- serde_json `as_str`: `some` only on strings. -/
def Json.asStr : Json → Option String
  | .str s => some s
  | _ => none

/-- Model extraction in `route_request`:
`request_json["model"].as_str().unwrap_or("unknown")`. -/
def extract_model (j : Json) : String :=
  (Json.asStr (jsonIndex j "model")).getD "unknown"

/-! ### Routing engine (src/router.rs) -/

/-- Embeds `Router::provider_id`: `format!("{}::{}", kind, api_url)`. -/
def provider_id (p : ResolvedProvider) : String :=
  p.kind ++ "::" ++ p.api_url

/-- Terminal errors of `route_request` (`anyhow::bail!` sites and the body
parse failure). -/
inductive RouteError where
  | parseError : RouteError
  | noProviders (kind model : String) : RouteError
  | allFailed (count : Nat) (model : String) : RouteError
deriving DecidableEq, Repr

/-- Render a `RouteError` the way the `anyhow` messages read. -/
def renderRouteError : RouteError → String
  | .parseError => "Failed to parse request body as JSON"
  | .noProviders kind model =>
    "No providers available for " ++ kind ++ " model: " ++ model
  | .allFailed count model =>
    "All " ++ toString count ++ " providers failed for model: " ++ model

/-- Observable outcome of one `route_request` call: the returned response or
terminal error, the providers attempted in order, the affinity state for the
request's key after the call (input state transformed by the
invalidate/set side effects), and the extracted model string. -/
structure RouteResult (α : Type) where
  result : Except RouteError α
  attempts : List ResolvedProvider
  affinity : Option String
  model : String
deriving Repr

/-- Step 5 of `route_request`: walk the snapshot in order, skipping every
provider whose identity equals the cached identity, attempting each other
one until the first success.  Returns (providers attempted, first success
as (provider, response) if any). -/
def sweepAttempts {α : Type} (cachedId : Option String)
    (attempt : ResolvedProvider → Option α) :
    List ResolvedProvider → List ResolvedProvider × Option (ResolvedProvider × α)
  | [] => ([], none)
  | p :: rest =>
    if cachedId == some (provider_id p) then
      sweepAttempts cachedId attempt rest
    else
      match attempt p with
      | some resp => ([p], some (p, resp))
      | none =>
        let r := sweepAttempts cachedId attempt rest
        (p :: r.1, r.2)

/-- Steps 4–6 of `route_request`, on a non-empty kind-filtered snapshot:
sticky attempt (with affinity refresh on success and invalidation on
failure), ordered sweep, and the exhaustion error counting the whole
snapshot. -/
def route_core {α : Type} (model : String) (cachedId : Option String)
    (providers : List ResolvedProvider)
    (attempt : ResolvedProvider → Option α) : RouteResult α :=
  match cachedId.bind (fun id =>
      providers.find? (fun p => provider_id p == id)) with
  | some sticky =>
    match attempt sticky with
    | some resp =>
      ⟨.ok resp, [sticky], some (provider_id sticky), model⟩
    | none =>
      match sweepAttempts cachedId attempt providers with
      | (tried, some (w, resp)) =>
        ⟨.ok resp, sticky :: tried, some (provider_id w), model⟩
      | (tried, none) =>
        ⟨.error (.allFailed providers.length model), sticky :: tried,
         none, model⟩
  | none =>
    match sweepAttempts cachedId attempt providers with
    | (tried, some (w, resp)) =>
      ⟨.ok resp, tried, some (provider_id w), model⟩
    | (tried, none) =>
      ⟨.error (.allFailed providers.length model), tried, cachedId, model⟩

/-- Embeds `Router::route_request`.  `parsed` is the serde parse outcome of
the body (`none` = unparseable); `cachedId` the affinity-store `get` result
for the request's key; `attempt` the `try_provider` oracle. -/
def route_request {α : Type} (kind : String) (parsed : Option Json)
    (cachedId : Option String) (allProviders : List ResolvedProvider)
    (attempt : ResolvedProvider → Option α) : RouteResult α :=
  match parsed with
  | none => ⟨.error .parseError, [], cachedId, "unknown"⟩
  | some j =>
    let model := extract_model j
    let providers := allProviders.filter (fun p => p.kind == kind)
    if providers.isEmpty then
      ⟨.error (.noProviders kind model), [], cachedId, model⟩
    else
      route_core model cachedId providers attempt

/-! ### Forwarding protocol (src/router.rs, `try_provider`) -/

/-- Header map as the (name, value) pairs a `HeaderMap` iterates, names in
their normalized lowercase storage form. -/
abbrev Headers := List (String × String)

/-- First value for a header name (`HeaderMap::get`). -/
def lookupHeader (hs : Headers) (name : String) : Option String :=
  (hs.find? (fun kv => kv.1 == name)).map (fun kv => kv.2)

/-- ASCII lowercasing of one character (`u8::to_ascii_lowercase`). -/
def asciiLowerChar (c : Char) : Char :=
  if 65 ≤ c.toNat ∧ c.toNat ≤ 90 then Char.ofNat (c.toNat + 32) else c

/-- ASCII lowercasing (`str::to_ascii_lowercase`); `eq_ignore_ascii_case`
comparisons are modelled as equality of the `asciiLower` images. -/
def asciiLower (s : String) : String :=
  String.mk (s.data.map asciiLowerChar)

/-- Substring test used for the content-type check (`str::contains`). -/
def strContains (hay pat : String) : Bool :=
  1 < (hay.splitOn pat).length

/-- Hop-by-hop header names dropped in both directions. -/
def hopByHop (name : String) : Bool :=
  name == "connection" || name == "proxy-connection" || name == "keep-alive" ||
    name == "transfer-encoding" || name == "upgrade" || name == "te" ||
    name == "trailers"

/-- Upstream response as seen after the transport call: status code and
header pairs (body handled separately). -/
structure UpstreamResponse where
  status : Nat
  headers : Headers
deriving DecidableEq, Repr

/-- reqwest `StatusCode::is_success`: 200..=299. -/
def statusIsSuccess (status : Nat) : Bool :=
  200 ≤ status && status < 300

/-- Embeds the response validation in `try_provider`: non-2xx status, then
the `x-tengine-error` WAF signal, then a present content-type containing
neither `application/json` nor `text/event-stream`. -/
def try_validate (resp : UpstreamResponse) : Except String Unit :=
  if !statusIsSuccess resp.status then
    .error "Provider returned error status"
  else if (lookupHeader resp.headers "x-tengine-error").isSome then
    .error "Provider blocked by WAF"
  else
    match lookupHeader resp.headers "content-type" with
    | some ct =>
      if !strContains ct "application/json" &&
          !strContains ct "text/event-stream" then
        .error "Provider returned non-JSON content-type"
      else .ok ()
    | none => .ok ()

/-- `HeaderMap::insert` on the request side: replaces every existing value
of the name, then holds the new pair. -/
def insertHeader (hs : Headers) (name value : String) : Headers :=
  hs.filter (fun kv => !(kv.1 == name)) ++ [(name, value)]

/-- Body of the request-header copy loop in `try_provider`: skip `host` and
inbound `authorization`, skip the hop-by-hop set and `content-length`,
insert everything else. -/
def requestHeaderStep (acc : Headers) (kv : String × String) : Headers :=
  if kv.1 == "host" || kv.1 == "authorization" then acc
  else if hopByHop (asciiLower kv.1) || asciiLower kv.1 == "content-length" then acc
  else insertHeader acc kv.1 kv.2

/-- Embeds the request-header assembly in `try_provider`: copy inbound
headers skipping `host`, inbound `authorization`, the hop-by-hop set and
`content-length`; then insert `authorization: Bearer <key>`; then default
`accept` to `application/json` when absent. -/
def build_request_headers (inbound : Headers) (api_key : String) : Headers :=
  let base := inbound.foldl requestHeaderStep []
  let withAuth := insertHeader base "authorization" ("Bearer " ++ api_key)
  if (lookupHeader withAuth "accept").isSome then withAuth
  else insertHeader withAuth "accept" "application/json"

/-- Detection of `content-encoding: gzip` among the upstream headers
(both comparisons ASCII case-insensitive in the source). -/
def has_gzip_encoding (upstream : Headers) : Bool :=
  upstream.any (fun kv =>
    asciiLower kv.1 == "content-encoding" && asciiLower kv.2 == "gzip")

/-- Embeds the response-header forwarding loop in `try_provider`: drop a
`content-encoding` pair whose value is `gzip`, the hop-by-hop set, and
`content-length`; forward everything else in order (the axum builder
appends). -/
def forward_response_headers (upstream : Headers) : Headers :=
  upstream.filter (fun kv =>
    !(asciiLower kv.1 == "content-encoding" && asciiLower kv.2 == "gzip") &&
      !hopByHop (asciiLower kv.1) && !(asciiLower kv.1 == "content-length"))

/-- Embeds the body pipeline at the end of `try_provider`: the upstream
byte stream, decompressed through the gzip decoder exactly when a gzip
`content-encoding` was seen.  `gunzip` abstracts the decoder. -/
def deliver_body (gunzip : List Nat → List Nat) (upstream : Headers)
    (body : List Nat) : List Nat :=
  if has_gzip_encoding upstream then gunzip body else body

/-! ### Server layer (src/server.rs) -/

/-- Body-size ceiling (`MAX_BODY_BYTES = 5 * 1024 * 1024`). -/
def MAX_BODY_BYTES : Nat := 5 * 1024 * 1024

/-- Response handed back to the caller: status, headers, JSON body (bodies
that stream upstream bytes are opaque here and irrelevant to the claims
about this type). -/
structure HttpResponse where
  status : Nat
  headers : Headers
  body : Json

/-- Embeds `error_response` in src/router.rs: JSON object
`{"error": message}` with the given status and content-type
`application/json`. -/
def error_response (status : Nat) (message : String) : HttpResponse :=
  ⟨status, [("content-type", "application/json")],
   .obj [("error", .str message)]⟩

/-- Embeds `handle_request` in src/server.rs: reject a body over the size
ceiling with 413 before routing; otherwise route and wrap any routing error
as a 502 with the aggregate message. -/
def handle_request (bodyLen : Nat) (parsed : Option Json) (kind : String)
    (cachedId : Option String) (allProviders : List ResolvedProvider)
    (attempt : ResolvedProvider → Option HttpResponse) : HttpResponse :=
  if MAX_BODY_BYTES < bodyLen then
    error_response 413 "Request body too large"
  else
    match (route_request kind parsed cachedId allProviders attempt).result with
    | .ok resp => resp
    | .error e =>
      error_response 502 ("All providers failed: " ++ renderRouteError e)

/-! ### Helper lemmas: affinity store -/

theorem lookupAff_nil (k : String) : lookupAff [] k = none := rfl

theorem lookupAff_removeAff (s : AffStore) (k : String) :
    lookupAff (removeAff s k) k = none := by
  induction s with
  | nil => rfl
  | cons kv s ih =>
    by_cases h : kv.1 = k
    · simp only [removeAff, List.filter] at ih ⊢
      simp only [h, beq_self_eq_true, Bool.not_true, reduceIte]
      exact ih
    · simp only [removeAff, List.filter] at ih ⊢
      have hb : (kv.1 == k) = false := beq_eq_false_iff_ne.mpr h
      simp only [hb, Bool.not_false, reduceIte]
      rw [lookupAff, List.find?_cons_of_neg]
      · exact ih
      · simp [h]

theorem lookupAff_append_single (s : AffStore) (k : String) (a : CacheAffinity)
    (h : lookupAff s k = none) : lookupAff (s ++ [(k, a)]) k = some a := by
  induction s with
  | nil => simp [lookupAff]
  | cons kv s ih =>
    by_cases hk : kv.1 = k
    · simp [lookupAff, List.find?_cons_of_pos, hk] at h
    · rw [lookupAff, List.find?_cons_of_neg] at h
      · rw [lookupAff, List.cons_append, List.find?_cons_of_neg]
        · exact ih h
        · simp [hk]
      · simp [hk]

theorem lookupAff_set_self (s : AffStore) (t₀ : ℚ) (ttl : Nat) (k p : String) :
    lookupAff (CacheAffinityManager.set s t₀ ttl k p) k =
      some ⟨p, t₀ + (ttl : ℚ), 1⟩ := by
  unfold CacheAffinityManager.set
  exact lookupAff_append_single _ _ _ (lookupAff_removeAff s k)

theorem get_eq_of_lookup_none (s : AffStore) (now : ℚ) (k : String)
    (h : lookupAff s k = none) :
    CacheAffinityManager.get s now k = (none, s) := by
  unfold CacheAffinityManager.get
  rw [h]

theorem filter_flatMap {α β : Type} (p : α → Bool) (f : α → List β)
    (l : List α) :
    (l.filter p).flatMap f = l.flatMap (fun a => if p a then f a else []) := by
  induction l with
  | nil => rfl
  | cons a l ih =>
    by_cases h : p a = true
    · simp [List.filter_cons, h, ih]
    · simp only [Bool.not_eq_true] at h
      simp [List.filter_cons, h, ih]

/-! ### Helper lemmas: routing engine -/

theorem getLast?_cons_of_getLast? {β : Type} (x : β) (l : List β) (w : β)
    (h : l.getLast? = some w) : (x :: l).getLast? = some w := by
  cases l with
  | nil => simp at h
  | cons b t => rw [List.getLast?_cons_cons]; exact h

theorem mem_dropLast_cons {β : Type} (x : β) (l : List β) (p : β)
    (hp : p ∈ (x :: l).dropLast) : p = x ∨ p ∈ l.dropLast := by
  cases l with
  | nil => simp [List.dropLast] at hp
  | cons b t =>
    rw [List.dropLast_cons₂] at hp
    exact List.mem_cons.mp hp

theorem beq_comm_str (a b : String) : (a == b) = (b == a) := by
  by_cases h : a = b
  · simp [h]
  · have h' : ¬ b = a := fun hb => h hb.symm
    simp [h, h']

theorem sweep_skips {α : Type} (cid : Option String)
    (att : ResolvedProvider → Option α) (l : List ResolvedProvider) :
    ∀ p ∈ (sweepAttempts cid att l).1,
      (cid == some (provider_id p)) = false := by
  induction l with
  | nil => simp [sweepAttempts]
  | cons q l ih =>
    by_cases hq : cid == some (provider_id q)
    · simpa [sweepAttempts, hq] using ih
    · simp only [Bool.not_eq_true] at hq
      cases ha : att q with
      | some a =>
        intro p hp
        simp only [sweepAttempts, hq, ha, Bool.false_eq_true, reduceIte,
          List.mem_singleton] at hp
        subst hp
        exact hq
      | none =>
        intro p hp
        simp only [sweepAttempts, hq, ha, Bool.false_eq_true, reduceIte,
          List.mem_cons] at hp
        rcases hp with rfl | hp
        · exact hq
        · exact ih p hp

theorem sweep_front_of_filter {α : Type} (cid : Option String)
    (att : ResolvedProvider → Option α) (l : List ResolvedProvider) :
    ∃ t, l.filter (fun p => !(cid == some (provider_id p))) =
      (sweepAttempts cid att l).1 ++ t := by
  induction l with
  | nil => exact ⟨[], rfl⟩
  | cons q l ih =>
    by_cases hq : cid == some (provider_id q)
    · simpa [sweepAttempts, List.filter_cons, hq] using ih
    · simp only [Bool.not_eq_true] at hq
      cases ha : att q with
      | some a =>
        refine ⟨l.filter (fun p => !(cid == some (provider_id p))), ?_⟩
        simp [sweepAttempts, List.filter_cons, hq, ha]
      | none =>
        obtain ⟨t, ht⟩ := ih
        refine ⟨t, ?_⟩
        simp [sweepAttempts, List.filter_cons, hq, ha, ht]

theorem sweep_none_eq_filter {α : Type} (cid : Option String)
    (att : ResolvedProvider → Option α) (l : List ResolvedProvider)
    (h : (sweepAttempts cid att l).2 = none) :
    (sweepAttempts cid att l).1 =
      l.filter (fun p => !(cid == some (provider_id p))) := by
  induction l with
  | nil => simp [sweepAttempts]
  | cons q l ih =>
    by_cases hq : cid == some (provider_id q)
    · simp only [sweepAttempts, hq, reduceIte] at h ⊢
      rw [List.filter_cons_of_neg (by simp [hq])]
      exact ih h
    · simp only [Bool.not_eq_true] at hq
      cases ha : att q with
      | some a => simp [sweepAttempts, hq, ha] at h
      | none =>
        simp only [sweepAttempts, hq, ha, Bool.false_eq_true, reduceIte] at h ⊢
        rw [List.filter_cons_of_pos (by simp [hq])]
        simpa using ih h

theorem sweep_none_all_fail {α : Type} (cid : Option String)
    (att : ResolvedProvider → Option α) (l : List ResolvedProvider)
    (h : (sweepAttempts cid att l).2 = none) :
    ∀ p ∈ (sweepAttempts cid att l).1, att p = none := by
  induction l with
  | nil => simp [sweepAttempts]
  | cons q l ih =>
    by_cases hq : cid == some (provider_id q)
    · simp only [sweepAttempts, hq, reduceIte] at h ⊢
      exact ih h
    · simp only [Bool.not_eq_true] at hq
      cases ha : att q with
      | some a => simp [sweepAttempts, hq, ha] at h
      | none =>
        simp only [sweepAttempts, hq, ha, Bool.false_eq_true, reduceIte] at h ⊢
        intro p hp
        rcases List.mem_cons.mp hp with rfl | hp
        · exact ha
        · exact ih h p hp

theorem sweep_some_spec {α : Type} (cid : Option String)
    (att : ResolvedProvider → Option α) (l : List ResolvedProvider)
    (w : ResolvedProvider) (a : α)
    (h : (sweepAttempts cid att l).2 = some (w, a)) :
    att w = some a ∧ (sweepAttempts cid att l).1.getLast? = some w := by
  induction l with
  | nil => simp [sweepAttempts] at h
  | cons q l ih =>
    by_cases hq : cid == some (provider_id q)
    · simp only [sweepAttempts, hq, reduceIte] at h ⊢
      exact ih h
    · simp only [Bool.not_eq_true] at hq
      cases ha : att q with
      | some b =>
        simp only [sweepAttempts, hq, ha, Bool.false_eq_true, reduceIte]
          at h ⊢
        obtain ⟨rfl, rfl⟩ : q = w ∧ b = a := by simpa using h
        simp [ha]
      | none =>
        simp only [sweepAttempts, hq, ha, Bool.false_eq_true, reduceIte]
          at h ⊢
        obtain ⟨hw, hl⟩ := ih h
        exact ⟨hw, getLast?_cons_of_getLast? q _ w hl⟩

theorem sweep_dropLast_fail {α : Type} (cid : Option String)
    (att : ResolvedProvider → Option α) (l : List ResolvedProvider) :
    ∀ p ∈ (sweepAttempts cid att l).1.dropLast, att p = none := by
  induction l with
  | nil => simp [sweepAttempts]
  | cons q l ih =>
    by_cases hq : cid == some (provider_id q)
    · simpa [sweepAttempts, hq] using ih
    · simp only [Bool.not_eq_true] at hq
      cases ha : att q with
      | some a => simp [sweepAttempts, hq, ha]
      | none =>
        simp only [sweepAttempts, hq, ha, Bool.false_eq_true, reduceIte]
        cases hr : (sweepAttempts cid att l).1 with
        | nil => simp
        | cons b t =>
          intro p hp
          rw [List.dropLast_cons₂] at hp
          rcases List.mem_cons.mp hp with rfl | hp
          · exact ha
          · have := ih p
            rw [hr] at this
            exact this hp

theorem sweep_all_fail_none {α : Type} (cid : Option String)
    (att : ResolvedProvider → Option α) (l : List ResolvedProvider)
    (h : ∀ p ∈ l, att p = none) :
    (sweepAttempts cid att l).2 = none := by
  induction l with
  | nil => simp [sweepAttempts]
  | cons q l ih =>
    by_cases hq : cid == some (provider_id q)
    · simp only [sweepAttempts, hq, reduceIte]
      exact ih (fun p hp => h p (List.mem_cons_of_mem q hp))
    · simp only [Bool.not_eq_true] at hq
      have ha : att q = none := h q (List.mem_cons_self q l)
      simp only [sweepAttempts, hq, ha, Bool.false_eq_true, reduceIte]
      exact ih (fun p hp => h p (List.mem_cons_of_mem q hp))

theorem route_request_parse_fail {α : Type} (kind : String)
    (cid : Option String) (all : List ResolvedProvider)
    (att : ResolvedProvider → Option α) :
    route_request kind none cid all att =
      ⟨.error .parseError, [], cid, "unknown"⟩ := rfl

theorem route_request_empty {α : Type} (kind : String) (j : Json)
    (cid : Option String) (all : List ResolvedProvider)
    (att : ResolvedProvider → Option α)
    (he : all.filter (fun p => p.kind == kind) = []) :
    route_request kind (some j) cid all att =
      ⟨.error (.noProviders kind (extract_model j)), [], cid,
       extract_model j⟩ := by
  simp only [route_request, he, List.isEmpty_nil, reduceIte]

theorem route_request_eq_core {α : Type} (kind : String) (j : Json)
    (cid : Option String) (all providers : List ResolvedProvider)
    (att : ResolvedProvider → Option α)
    (hP : all.filter (fun p => p.kind == kind) = providers)
    (hne : providers ≠ []) :
    route_request kind (some j) cid all att =
      route_core (extract_model j) cid providers att := by
  simp only [route_request, hP]
  rw [if_neg]
  simp [List.isEmpty_iff, hne]

theorem route_core_sticky_ok {α : Type} (model : String) (cid : Option String)
    (providers : List ResolvedProvider) (att : ResolvedProvider → Option α)
    (sticky : ResolvedProvider) (a : α)
    (hc : cid.bind (fun id =>
      providers.find? (fun p => provider_id p == id)) = some sticky)
    (ha : att sticky = some a) :
    route_core model cid providers att =
      ⟨.ok a, [sticky], some (provider_id sticky), model⟩ := by
  unfold route_core
  rw [hc]
  dsimp only
  rw [ha]

theorem route_core_sticky_fail {α : Type} (model : String)
    (cid : Option String) (providers : List ResolvedProvider)
    (att : ResolvedProvider → Option α) (sticky : ResolvedProvider)
    (hc : cid.bind (fun id =>
      providers.find? (fun p => provider_id p == id)) = some sticky)
    (ha : att sticky = none) :
    route_core model cid providers att =
      match sweepAttempts cid att providers with
      | (tried, some (w, _resp)) =>
        ⟨.ok _resp, sticky :: tried, some (provider_id w), model⟩
      | (tried, none) =>
        ⟨.error (.allFailed providers.length model), sticky :: tried,
         none, model⟩ := by
  unfold route_core
  rw [hc]
  dsimp only
  rw [ha]

theorem route_core_no_sticky {α : Type} (model : String)
    (cid : Option String) (providers : List ResolvedProvider)
    (att : ResolvedProvider → Option α)
    (hc : cid.bind (fun id =>
      providers.find? (fun p => provider_id p == id)) = none) :
    route_core model cid providers att =
      match sweepAttempts cid att providers with
      | (tried, some (w, _resp)) =>
        ⟨.ok _resp, tried, some (provider_id w), model⟩
      | (tried, none) =>
        ⟨.error (.allFailed providers.length model), tried, cid, model⟩ := by
  unfold route_core
  rw [hc]

/-! ### Claim theorems -/

/-- C2: after `set(k, p)` at time t₀ with time-to-live `ttl`, the store holds
a record with expiry `t₀ + ttl` (and hit count 1); `get(k)` returns `p` at
every instant strictly before `t₀ + ttl`; at or after `t₀ + ttl` it returns
absent and removes the record; and `get` on a key not in the store returns
absent. -/
theorem affinity_set_get_ttl (s : AffStore) (t₀ now : ℚ) (ttl : Nat)
    (k p : String) :
    lookupAff (CacheAffinityManager.set s t₀ ttl k p) k =
        some ⟨p, t₀ + (ttl : ℚ), 1⟩
    ∧ (now < t₀ + (ttl : ℚ) →
        (CacheAffinityManager.get (CacheAffinityManager.set s t₀ ttl k p)
          now k).1 = some p)
    ∧ (t₀ + (ttl : ℚ) ≤ now →
        (CacheAffinityManager.get (CacheAffinityManager.set s t₀ ttl k p)
          now k).1 = none
        ∧ lookupAff (CacheAffinityManager.get
            (CacheAffinityManager.set s t₀ ttl k p) now k).2 k = none)
    ∧ (∀ s₀ : AffStore, lookupAff s₀ k = none →
        (CacheAffinityManager.get s₀ now k).1 = none) := by
  refine ⟨lookupAff_set_self s t₀ ttl k p, ?_, ?_, ?_⟩
  · intro hlt
    unfold CacheAffinityManager.get
    simp only [lookupAff_set_self]
    rw [if_neg (not_le.mpr hlt)]
  · intro hle
    unfold CacheAffinityManager.get
    simp only [lookupAff_set_self]
    rw [if_pos hle]
    exact ⟨rfl, lookupAff_removeAff _ k⟩
  · intro s₀ h
    rw [get_eq_of_lookup_none s₀ now k h]

/-- Closed instance of `affinity_set_get_ttl` at concrete times. -/
theorem affinity_set_get_ttl_witness :
    ((2999 : ℚ) / 10 < 0 + (300 : Nat) →
      (CacheAffinityManager.get (CacheAffinityManager.set [] 0 300 "k" "p1")
        ((2999 : ℚ) / 10) "k").1 = some "p1") ∧
    ((CacheAffinityManager.get (CacheAffinityManager.set [] 0 300 "k" "p1")
        ((2999 : ℚ) / 10) "k").1 = some "p1") := by
  have h := affinity_set_get_ttl [] 0 ((2999 : ℚ) / 10) 300 "k" "p1"
  exact ⟨h.2.1, h.2.1 (by norm_num)⟩

/-- C9: one cleanup sweep retains exactly the records with
`now < expire_at` and removes exactly those with `expire_at ≤ now`; hence no
expired record remains after a sweep. -/
theorem sweep_removes_exactly_expired (s : AffStore) (now : ℚ) :
    ∀ e : String × CacheAffinity,
      (e ∈ cleanup_sweep s now ↔ e ∈ s ∧ now < e.2.expire_at)
      ∧ (e ∈ cleanup_sweep s now → ¬ e.2.expire_at ≤ now) := by
  intro e
  constructor
  · simp [cleanup_sweep, List.mem_filter]
  · intro he
    have := (List.mem_filter.mp he).2
    simp only [decide_eq_true_eq] at this
    exact not_le.mpr this

/-- Closed instance of `sweep_removes_exactly_expired`: in a store with one
live and one expired record, the live record survives a sweep at time 2 and
is unexpired there. -/
theorem sweep_removes_exactly_expired_witness :
    ("k", (⟨"p1", 5, 1⟩ : CacheAffinity)) ∈
        cleanup_sweep [("k", ⟨"p1", 5, 1⟩), ("j", ⟨"p2", 1, 1⟩)] 2
      ∧ ¬ (("k", (⟨"p1", 5, 1⟩ : CacheAffinity)).2.expire_at ≤ 2) := by
  have h := sweep_removes_exactly_expired
    [("k", ⟨"p1", 5, 1⟩), ("j", ⟨"p2", 1, 1⟩)] 2 ("k", ⟨"p1", 5, 1⟩)
  have hmem : ("k", (⟨"p1", 5, 1⟩ : CacheAffinity)) ∈
      cleanup_sweep [("k", ⟨"p1", 5, 1⟩), ("j", ⟨"p2", 1, 1⟩)] 2 :=
    (h.1).mpr ⟨by simp, by norm_num⟩
  exact ⟨hmem, h.2 hmem⟩

/-- C4: the flattening of the raw provider list implemented in
`Router::flatten_providers` over `Provider::get_platform_config` coincides,
on every raw list, with the spec's description `resolvedSpec`: in
configuration order, exactly one resolved provider per (enabled entry, kind
in codex/claude) pair whose per-kind sub-config — or, when none exists, the
shared endpoint/credential pair — yields a non-empty URL and credential;
disabled entries contribute nothing. -/
theorem flatten_providers_eq_resolvedSpec (providers : List Provider) :
    flatten_providers providers = resolvedSpec providers := by
  unfold flatten_providers resolvedSpec
  rw [filter_flatMap]
  congr 1
  funext p
  by_cases hp : p.enabled
  · simp only [hp, reduceIte]
    obtain ⟨en, lv, nm, au, ak, cx, cl⟩ := p
    cases cx <;> cases cl <;> cases au <;> cases ak <;>
      simp [List.filterMap, Provider.get_platform_config] <;>
      split_ifs <;> simp_all
  · simp [hp]

/-- C5: a single delivery attempt's validation fails exactly when the status
is not 2xx, or the `x-tengine-error` WAF signal header is present, or a
content-type header is present whose value contains neither
`application/json` nor `text/event-stream`; an absent content-type is not a
failure. -/
theorem try_validate_fails_iff (resp : UpstreamResponse) :
    (try_validate resp ≠ .ok ()) ↔
      (¬ (200 ≤ resp.status ∧ resp.status < 300)
        ∨ (lookupHeader resp.headers "x-tengine-error").isSome = true
        ∨ ∃ ct, lookupHeader resp.headers "content-type" = some ct
            ∧ strContains ct "application/json" = false
            ∧ strContains ct "text/event-stream" = false) := by
  unfold try_validate
  by_cases hs : statusIsSuccess resp.status = true
  · have hs' : 200 ≤ resp.status ∧ resp.status < 300 := by
      simpa [statusIsSuccess, Bool.and_eq_true, decide_eq_true_eq] using hs
    by_cases hw : (lookupHeader resp.headers "x-tengine-error").isSome = true
    · simp [hs, hw]
    · cases hct : lookupHeader resp.headers "content-type" with
      | none => simp [hs, hw, hct, hs']
      | some ct =>
        by_cases hj : strContains ct "application/json" = true
        · simp [hs, hw, hct, hs', hj]
        · by_cases he : strContains ct "text/event-stream" = true
          · simp [hs, hw, hct, hs', hj, he]
          · simp only [Bool.not_eq_true] at hj he
            simp [hs, hw, hct, hs', hj, he]
  · have hs' : ¬ (200 ≤ resp.status ∧ resp.status < 300) := by
      intro hc
      exact hs (by simpa [statusIsSuccess, Bool.and_eq_true, decide_eq_true_eq]
        using hc)
    simp only [Bool.not_eq_true] at hs
    simp [hs, hs']

/-- Closed instance of `try_validate_fails_iff`: a 404 response fails
validation. -/
theorem try_validate_fails_iff_witness :
    try_validate ⟨404, []⟩ ≠ .ok () :=
  (try_validate_fails_iff ⟨404, []⟩).mpr (Or.inl (by decide))

/-! ### Helper lemmas: header handling -/

theorem find?_filter_not_name (hs : Headers) (n : String) :
    (hs.filter (fun kv => !(kv.1 == n))).find? (fun kv => kv.1 == n) =
      none := by
  rw [List.find?_eq_none]
  intro kv hkv
  have := (List.mem_filter.mp hkv).2
  simp only [Bool.not_eq_true'] at this
  simp [this]

theorem lookupHeader_insertHeader_self (hs : Headers) (n v : String) :
    lookupHeader (insertHeader hs n v) n = some v := by
  unfold insertHeader lookupHeader
  rw [List.find?_append, find?_filter_not_name]
  simp [List.find?]

theorem mem_insertHeader (hs : Headers) (n v : String)
    (kv : String × String) (h : kv ∈ insertHeader hs n v) :
    kv ∈ hs ∨ kv = (n, v) := by
  unfold insertHeader at h
  rcases List.mem_append.mp h with h | h
  · exact Or.inl (List.mem_filter.mp h).1
  · exact Or.inr (List.mem_singleton.mp h)

theorem filter_insertHeader_self (hs : Headers) (n v : String) :
    (insertHeader hs n v).filter (fun kv => kv.1 == n) = [(n, v)] := by
  unfold insertHeader
  rw [List.filter_append, List.filter_filter]
  have h0 : hs.filter (fun kv => (kv.1 == n) && !(kv.1 == n)) = [] := by
    apply List.filter_eq_nil_iff.mpr
    intro kv _
    cases hb : kv.1 == n <;> simp [hb]
  rw [h0]
  simp

theorem filter_insertHeader_other (hs : Headers) (n v m : String)
    (hnm : (n == m) = false) :
    (insertHeader hs n v).filter (fun kv => kv.1 == m) =
      hs.filter (fun kv => kv.1 == m) := by
  unfold insertHeader
  rw [List.filter_append, List.filter_filter]
  have h1 : List.filter (fun kv => kv.1 == m)
      [(n, v)] = ([] : Headers) := by
    simp [hnm]
  have h2 : hs.filter (fun kv => (kv.1 == m) && !(kv.1 == n)) =
      hs.filter (fun kv => kv.1 == m) := by
    apply List.filter_congr
    intro kv _
    by_cases h : kv.1 = m
    · have hmn : (m == n) = false := by
        rw [beq_eq_false_iff_ne] at hnm ⊢
        exact fun hc => hnm hc.symm
      simp [h, hmn]
    · have hb : (kv.1 == m) = false := beq_eq_false_iff_ne.mpr h
      simp [hb]
  rw [h1, h2, List.append_nil]

theorem lookupHeader_eq_none_iff (hs : Headers) (n : String) :
    lookupHeader hs n = none ↔ ∀ kv ∈ hs, (kv.1 == n) = false := by
  unfold lookupHeader
  cases hf : hs.find? (fun kv => kv.1 == n) with
  | none =>
    refine ⟨fun _ kv hkv => ?_, fun _ => rfl⟩
    have := List.find?_eq_none.mp hf kv hkv
    simpa using this
  | some kv0 =>
    refine ⟨fun h => ?_, fun h => ?_⟩
    · simp at h
    · have h1 := List.find?_some hf
      have h2 := List.mem_of_find?_eq_some hf
      have := h kv0 h2
      simp only [this] at h1
      cases h1

theorem requestHeaderStep_cases (acc : Headers) (kv : String × String) :
    requestHeaderStep acc kv = acc ∨
      (requestHeaderStep acc kv = insertHeader acc kv.1 kv.2
        ∧ (kv.1 == "host") = false ∧ (kv.1 == "authorization") = false
        ∧ hopByHop (asciiLower kv.1) = false
        ∧ (asciiLower kv.1 == "content-length") = false) := by
  unfold requestHeaderStep
  cases h1 : (kv.1 == "host" || kv.1 == "authorization") with
  | true => simp [h1]
  | false =>
    cases h2 : (hopByHop (asciiLower kv.1) ||
        asciiLower kv.1 == "content-length") with
    | true => simp [h1, h2]
    | false =>
      right
      simp only [Bool.or_eq_false_iff] at h1 h2
      simp [h1.1, h1.2, h2.1, h2.2]

theorem build_fold_mem (l : Headers) :
    ∀ acc kv, kv ∈ l.foldl requestHeaderStep acc → kv ∈ acc ∨ kv ∈ l := by
  induction l with
  | nil =>
    intro acc kv h
    exact Or.inl h
  | cons x l ih =>
    intro acc kv h
    rw [List.foldl_cons] at h
    rcases ih (requestHeaderStep acc x) kv h with h' | h'
    · rcases requestHeaderStep_cases acc x with he | ⟨he, _, _, _, _⟩
      · rw [he] at h'
        exact Or.inl h'
      · rw [he] at h'
        rcases mem_insertHeader _ _ _ _ h' with h'' | h''
        · exact Or.inl h''
        · right
          rw [h'']
          exact List.mem_cons_self x l
    · exact Or.inr (List.mem_cons_of_mem x h')

theorem build_fold_good (l : Headers) :
    ∀ acc : Headers,
      (∀ kv ∈ acc, (kv.1 == "host") = false
        ∧ (kv.1 == "authorization") = false
        ∧ hopByHop (asciiLower kv.1) = false
        ∧ (asciiLower kv.1 == "content-length") = false) →
      ∀ kv ∈ l.foldl requestHeaderStep acc,
        (kv.1 == "host") = false ∧ (kv.1 == "authorization") = false
        ∧ hopByHop (asciiLower kv.1) = false
        ∧ (asciiLower kv.1 == "content-length") = false := by
  induction l with
  | nil =>
    intro acc hacc kv h
    exact hacc kv h
  | cons x l ih =>
    intro acc hacc kv h
    rw [List.foldl_cons] at h
    refine ih (requestHeaderStep acc x) ?_ kv h
    intro kv' h'
    rcases requestHeaderStep_cases acc x with he | ⟨he, g1, g2, g3, g4⟩
    · rw [he] at h'
      exact hacc kv' h'
    · rw [he] at h'
      rcases mem_insertHeader _ _ _ _ h' with h'' | h''
      · exact hacc kv' h''
      · rw [h'']
        exact ⟨g1, g2, g3, g4⟩

/-! ### Helper lemmas: route outcomes -/

theorem route_core_model {α : Type} (model : String) (cid : Option String)
    (providers : List ResolvedProvider)
    (att : ResolvedProvider → Option α) :
    (route_core model cid providers att).model = model := by
  unfold route_core
  split
  · split
    · rfl
    · split
      · rfl
      · rfl
  · split
    · rfl
    · rfl

theorem route_request_model {α : Type} (kind : String) (j : Json)
    (cid : Option String) (all : List ResolvedProvider)
    (att : ResolvedProvider → Option α) :
    (route_request kind (some j) cid all att).model = extract_model j := by
  by_cases he : (all.filter (fun p => p.kind == kind)) = []
  · rw [route_request_empty _ _ _ _ _ he]
  · rw [route_request_eq_core _ _ _ _ _ _ rfl he]
    exact route_core_model _ _ _ _

theorem route_core_all_fail_result {α : Type} (model : String)
    (cid : Option String) (providers : List ResolvedProvider)
    (att : ResolvedProvider → Option α)
    (hall : ∀ p ∈ providers, att p = none) :
    (route_core model cid providers att).result =
      Except.error (RouteError.allFailed providers.length model) := by
  cases hc : cid.bind (fun i =>
      providers.find? (fun p => provider_id p == i)) with
  | some sticky =>
    have hmem : sticky ∈ providers := by
      cases cid with
      | none => simp at hc
      | some i => exact List.mem_of_find?_eq_some hc
    have hat : att sticky = none := hall sticky hmem
    rw [route_core_sticky_fail _ _ _ _ _ hc hat]
    rcases hs : sweepAttempts cid att providers with ⟨tried, ores⟩
    cases ores with
    | some wa =>
      have h2 : (sweepAttempts cid att providers).2 = some wa := by rw [hs]
      have := sweep_all_fail_none cid att providers hall
      rw [h2] at this
      cases this
    | none => rfl
  | none =>
    rw [route_core_no_sticky _ _ _ _ hc]
    rcases hs : sweepAttempts cid att providers with ⟨tried, ores⟩
    cases ores with
    | some wa =>
      have h2 : (sweepAttempts cid att providers).2 = some wa := by rw [hs]
      have := sweep_all_fail_none cid att providers hall
      rw [h2] at this
      cases this
    | none => rfl

/-! ### Claim theorems: routing and forwarding -/

/-- C1: when the cached identity matches a kind-filtered snapshot member,
`route_request` attempts that sticky provider first and exactly once (it is
never re-attempted in the sweep); on sticky success the affinity is set to
its identity and its response returned; on sticky failure the affinity is
invalidated and the remaining snapshot members are tried in snapshot order;
when the cached identity matches no member the sweep runs over the full
ordered snapshot; the first successful attempt sets the affinity to the
winner's identity and returns its response. -/
theorem route_sticky_policy {α : Type} (kind : String) (j : Json) (id : String)
    (allProviders providers : List ResolvedProvider)
    (attempt : ResolvedProvider → Option α) (r : RouteResult α)
    (hP : allProviders.filter (fun p => p.kind == kind) = providers)
    (hne : providers ≠ [])
    (hr : route_request kind (some j) (some id) allProviders attempt = r) :
    (∀ sticky, providers.find? (fun p => provider_id p == id) = some sticky →
      r.attempts.head? = some sticky
      ∧ r.attempts.countP (fun p => provider_id p == id) = 1
      ∧ (∀ a, attempt sticky = some a →
          r.result = Except.ok a ∧ r.affinity = some (provider_id sticky)
            ∧ r.attempts = [sticky])
      ∧ (attempt sticky = none →
          r.affinity ≠ some id
          ∧ (∃ t, providers.filter (fun p => !(provider_id p == id)) =
              r.attempts.tail ++ t)
          ∧ ((∀ p ∈ providers, attempt p = none) →
              r.result = Except.error
                (RouteError.allFailed providers.length (extract_model j))
              ∧ r.affinity = none
              ∧ r.attempts.tail =
                  providers.filter (fun p => !(provider_id p == id))))
      ∧ (∀ a, r.result = Except.ok a →
          ∃ w, r.attempts.getLast? = some w ∧ attempt w = some a
            ∧ r.affinity = some (provider_id w)
            ∧ ∀ p ∈ r.attempts.dropLast, attempt p = none))
    ∧ (providers.find? (fun p => provider_id p == id) = none →
        (∃ t, providers = r.attempts ++ t)
        ∧ ((∀ p ∈ providers, attempt p = none) →
            r.attempts = providers
            ∧ r.result = Except.error
              (RouteError.allFailed providers.length (extract_model j)))) := by
  subst hr
  rw [route_request_eq_core kind j (some id) allProviders providers attempt hP hne]
  have hconv : ∀ p : ResolvedProvider,
      ((some id : Option String) == some (provider_id p)) =
        (provider_id p == id) := by
    intro p
    have h1 : ((some id : Option String) == some (provider_id p)) =
        (id == provider_id p) := rfl
    rw [h1, beq_comm_str]
  have hfilt : providers.filter
        (fun p => !((some id : Option String) == some (provider_id p))) =
      providers.filter (fun p => !(provider_id p == id)) :=
    List.filter_congr (fun p _ => by rw [hconv p])
  constructor
  · intro sticky hfind
    have hc : (Option.bind (some id) (fun i =>
        providers.find? (fun p => provider_id p == i))) = some sticky := hfind
    have hps0 := List.find?_some hfind
    have hps : (provider_id sticky == id) = true := by simpa using hps0
    cases hat : attempt sticky with
    | some a0 =>
      rw [route_core_sticky_ok _ _ _ _ _ _ hc hat]
      refine ⟨rfl, ?_, ?_, ?_, ?_⟩
      · simp [List.countP_cons, hps]
      · intro a ha
        obtain rfl : a0 = a := Option.some.inj ha
        exact ⟨rfl, rfl, rfl⟩
      · intro hn
        exact absurd hn (by simp)
      · intro a hres
        cases hres
        exact ⟨sticky, by simp, hat, rfl, by simp⟩
    | none =>
      rcases hs : sweepAttempts (some id) attempt providers with ⟨tried, ores⟩
      have h1 : (sweepAttempts (some id) attempt providers).1 = tried := by
        rw [hs]
      have hskip : ∀ p ∈ tried, (provider_id p == id) = false := by
        intro p hp
        have := sweep_skips (some id) attempt providers p (by rw [h1]; exact hp)
        rw [hconv p] at this
        exact this
      have hcount0 : tried.countP (fun p => provider_id p == id) = 0 :=
        List.countP_eq_zero.mpr (fun p hp => by simp [hskip p hp])
      rw [route_core_sticky_fail _ _ _ _ _ hc hat, hs]
      cases ores with
      | some wa =>
        rcases wa with ⟨w, a0⟩
        have h2 : (sweepAttempts (some id) attempt providers).2 =
            some (w, a0) := by rw [hs]
        obtain ⟨hwatt, hwlast⟩ := sweep_some_spec _ _ _ _ _ h2
        rw [h1] at hwlast
        have hwmem : w ∈ tried := List.mem_of_getLast?_eq_some hwlast
        have hwid : (provider_id w == id) = false := hskip w hwmem
        dsimp only
        refine ⟨rfl, ?_, ?_, ?_, ?_⟩
        · simp [List.countP_cons, hps, hcount0]
        · intro a ha
          exact absurd ha (by simp)
        · intro _
          refine ⟨?_, ?_, ?_⟩
          · intro hcontra
            have : provider_id w = id := by
              cases hcontra
              rfl
            rw [this] at hwid
            simp at hwid
          · obtain ⟨t, ht⟩ := sweep_front_of_filter (some id) attempt providers
            rw [h1, hfilt] at ht
            exact ⟨t, ht⟩
          · intro hall
            have : (sweepAttempts (some id) attempt providers).2 = none :=
              sweep_all_fail_none _ _ _ hall
            rw [h2] at this
            cases this
        · intro a hres
          cases hres
          refine ⟨w, getLast?_cons_of_getLast? sticky tried w hwlast, hwatt,
            rfl, ?_⟩
          intro p hp
          rcases mem_dropLast_cons sticky tried p hp with rfl | hp
          · exact hat
          · have := sweep_dropLast_fail (some id) attempt providers p
            rw [h1] at this
            exact this hp
      | none =>
        have h2 : (sweepAttempts (some id) attempt providers).2 = none := by
          rw [hs]
        have htried : tried = providers.filter
            (fun p => !(provider_id p == id)) := by
          have := sweep_none_eq_filter _ _ _ h2
          rw [h1, hfilt] at this
          exact this
        dsimp only
        refine ⟨rfl, ?_, ?_, ?_, ?_⟩
        · simp [List.countP_cons, hps, hcount0]
        · intro a ha
          exact absurd ha (by simp)
        · intro _
          refine ⟨by simp, ⟨[], by simp [htried]⟩, ?_⟩
          intro _
          exact ⟨rfl, rfl, by simp [htried]⟩
        · intro a hres
          exact absurd hres (by simp)
  · intro hfind
    have hc : (Option.bind (some id) (fun i =>
        providers.find? (fun p => provider_id p == i))) = none := hfind
    have hall : ∀ p ∈ providers,
        (!((some id : Option String) == some (provider_id p))) = true := by
      intro p hp
      have hnp : ¬ (provider_id p == id) = true :=
        List.find?_eq_none.mp hfind p hp
      have : (provider_id p == id) = false := by
        simpa using hnp
      rw [hconv p, this]
      rfl
    have hfe : providers.filter
        (fun p => !((some id : Option String) == some (provider_id p))) =
        providers := List.filter_eq_self.mpr hall
    rcases hs : sweepAttempts (some id) attempt providers with ⟨tried, ores⟩
    have h1 : (sweepAttempts (some id) attempt providers).1 = tried := by
      rw [hs]
    rw [route_core_no_sticky _ _ _ _ hc, hs]
    cases ores with
    | some wa =>
      rcases wa with ⟨w, a0⟩
      have h2 : (sweepAttempts (some id) attempt providers).2 =
          some (w, a0) := by rw [hs]
      dsimp only
      constructor
      · obtain ⟨t, ht⟩ := sweep_front_of_filter (some id) attempt providers
        rw [h1, hfe] at ht
        exact ⟨t, ht⟩
      · intro hallfail
        have : (sweepAttempts (some id) attempt providers).2 = none :=
          sweep_all_fail_none _ _ _ hallfail
        rw [h2] at this
        cases this
    | none =>
      have h2 : (sweepAttempts (some id) attempt providers).2 = none := by
        rw [hs]
      have htried : tried = providers := by
        have := sweep_none_eq_filter _ _ _ h2
        rw [h1, hfe] at this
        exact this
      dsimp only
      exact ⟨⟨[], by rw [htried, List.append_nil]⟩,
        fun _ => ⟨htried, rfl⟩⟩

/-- Closed instance of `route_sticky_policy`: the sticky provider is found
and tried first. -/
theorem route_sticky_policy_witness :
    (route_request "claude" (some (Json.obj [("model", Json.str "m1")]))
        (some "claude::https://a")
        [⟨"claude", "https://a", "k1", none, 0⟩,
         ⟨"claude", "https://b", "k2", none, 1⟩]
        (fun p => if p.api_url == "https://b" then some 1 else none)).attempts.head? =
      some (⟨"claude", "https://a", "k1", none, 0⟩ : ResolvedProvider) := by
  have h := route_sticky_policy "claude" (Json.obj [("model", Json.str "m1")])
    "claude::https://a"
    [⟨"claude", "https://a", "k1", none, 0⟩,
     ⟨"claude", "https://b", "k2", none, 1⟩]
    [⟨"claude", "https://a", "k1", none, 0⟩,
     ⟨"claude", "https://b", "k2", none, 1⟩]
    (fun p => if p.api_url == "https://b" then some 1 else none)
    (route_request "claude" (some (Json.obj [("model", Json.str "m1")]))
      (some "claude::https://a")
      [⟨"claude", "https://a", "k1", none, 0⟩,
       ⟨"claude", "https://b", "k2", none, 1⟩]
      (fun p => if p.api_url == "https://b" then some 1 else none))
    (by rfl) (by simp) rfl
  exact (h.1 ⟨"claude", "https://a", "k1", none, 0⟩ (by rfl)).1

/-- C10: after a failed sticky attempt, the ordered sweep skips every
snapshot provider whose derived identity equals the cached identity (not
merely the instance attempted in the sticky step), while the exhaustion
error still counts the whole snapshot. -/
theorem route_skip_by_identity {α : Type} (kind : String) (j : Json)
    (id : String) (allProviders providers : List ResolvedProvider)
    (attempt : ResolvedProvider → Option α) (sticky : ResolvedProvider)
    (r : RouteResult α)
    (hP : allProviders.filter (fun p => p.kind == kind) = providers)
    (hne : providers ≠ [])
    (hfind : providers.find? (fun p => provider_id p == id) = some sticky)
    (hfail : attempt sticky = none)
    (hr : route_request kind (some j) (some id) allProviders attempt = r) :
    (∀ p ∈ r.attempts.tail, (provider_id p == id) = false)
    ∧ ((∀ p ∈ providers, attempt p = none) →
        r.result = Except.error
          (RouteError.allFailed providers.length (extract_model j))) := by
  subst hr
  rw [route_request_eq_core kind j (some id) allProviders providers attempt
    hP hne]
  have hc : (Option.bind (some id) (fun i =>
      providers.find? (fun p => provider_id p == i))) = some sticky := hfind
  rw [route_core_sticky_fail _ _ _ _ _ hc hfail]
  rcases hs : sweepAttempts (some id) attempt providers with ⟨tried, ores⟩
  have h1 : (sweepAttempts (some id) attempt providers).1 = tried := by
    rw [hs]
  have hskip : ∀ p ∈ tried, (provider_id p == id) = false := by
    intro p hp
    have h := sweep_skips (some id) attempt providers p (by rw [h1]; exact hp)
    have hcv : ((some id : Option String) == some (provider_id p)) =
        (id == provider_id p) := rfl
    rw [hcv, beq_comm_str] at h
    exact h
  cases ores with
  | some wa =>
    rcases wa with ⟨w, a0⟩
    have h2 : (sweepAttempts (some id) attempt providers).2 =
        some (w, a0) := by rw [hs]
    dsimp only
    refine ⟨hskip, ?_⟩
    intro hall
    have := sweep_all_fail_none (some id) attempt providers hall
    rw [h2] at this
    cases this
  | none =>
    dsimp only
    exact ⟨hskip, fun _ => rfl⟩

/-- Closed instance of `route_skip_by_identity`: two providers sharing one
identity are both excluded after the sticky failure, and the error counts
both. -/
theorem route_skip_by_identity_witness :
    (∀ p ∈ (route_request "claude"
        (some (Json.obj [("model", Json.str "m1")]))
        (some "claude::https://a")
        [⟨"claude", "https://a", "k1", none, 0⟩,
         ⟨"claude", "https://a", "k2", none, 1⟩]
        (fun _ => (none : Option Nat))).attempts.tail,
      (provider_id p == "claude::https://a") = false)
    ∧ (route_request "claude" (some (Json.obj [("model", Json.str "m1")]))
        (some "claude::https://a")
        [⟨"claude", "https://a", "k1", none, 0⟩,
         ⟨"claude", "https://a", "k2", none, 1⟩]
        (fun _ => (none : Option Nat))).result =
      Except.error (RouteError.allFailed 2 "m1") := by
  have h := route_skip_by_identity "claude"
    (Json.obj [("model", Json.str "m1")]) "claude::https://a"
    [⟨"claude", "https://a", "k1", none, 0⟩,
     ⟨"claude", "https://a", "k2", none, 1⟩]
    [⟨"claude", "https://a", "k1", none, 0⟩,
     ⟨"claude", "https://a", "k2", none, 1⟩]
    (fun _ => (none : Option Nat))
    ⟨"claude", "https://a", "k1", none, 0⟩
    (route_request "claude" (some (Json.obj [("model", Json.str "m1")]))
      (some "claude::https://a")
      [⟨"claude", "https://a", "k1", none, 0⟩,
       ⟨"claude", "https://a", "k2", none, 1⟩]
      (fun _ => (none : Option Nat)))
    (by rfl) (by simp) (by rfl) rfl rfl
  exact ⟨h.1, h.2 (fun p _ => rfl)⟩

/-- C3: an empty kind-filtered snapshot makes `route_request` fail
immediately with the no-providers error and no attempt; when every
candidate attempt fails, it fails with the aggregate error counting the
snapshot and naming the model, and the handler wraps it as a 502 JSON
error. -/
theorem route_terminal_errors (kind : String) (j : Json) (cid : Option String)
    (allProviders : List ResolvedProvider)
    (attempt : ResolvedProvider → Option HttpResponse) (bodyLen : Nat) :
    (allProviders.filter (fun p => p.kind == kind) = [] →
      (route_request kind (some j) cid allProviders attempt).result =
        Except.error (RouteError.noProviders kind (extract_model j))
      ∧ (route_request kind (some j) cid allProviders attempt).attempts = [])
    ∧ ((∀ p ∈ allProviders.filter (fun p => p.kind == kind),
          attempt p = none) →
        allProviders.filter (fun p => p.kind == kind) ≠ [] →
        (route_request kind (some j) cid allProviders attempt).result =
          Except.error (RouteError.allFailed
            (allProviders.filter (fun p => p.kind == kind)).length
            (extract_model j))
        ∧ (bodyLen ≤ MAX_BODY_BYTES →
            handle_request bodyLen (some j) kind cid allProviders attempt =
              error_response 502 ("All providers failed: " ++
                renderRouteError (RouteError.allFailed
                  (allProviders.filter (fun p => p.kind == kind)).length
                  (extract_model j))))) := by
  constructor
  · intro he
    rw [route_request_empty _ _ _ _ _ he]
    exact ⟨rfl, rfl⟩
  · intro hall hne
    have hres : (route_request kind (some j) cid allProviders attempt).result =
        Except.error (RouteError.allFailed
          (allProviders.filter (fun p => p.kind == kind)).length
          (extract_model j)) := by
      rw [route_request_eq_core _ _ _ _ _ _ rfl hne]
      exact route_core_all_fail_result _ _ _ _ hall
    refine ⟨hres, ?_⟩
    intro hlen
    unfold handle_request
    rw [if_neg (by omega), hres]

/-- Closed instance of `route_terminal_errors`: two failing providers give
the caller a 502 aggregate error. -/
theorem route_terminal_errors_witness :
    handle_request 0 (some (Json.obj [("model", Json.str "m1")])) "claude"
        none
        [⟨"claude", "https://a", "k1", none, 0⟩,
         ⟨"claude", "https://b", "k2", none, 1⟩]
        (fun _ => none) =
      error_response 502
        ("All providers failed: All 2 providers failed for model: m1") := by
  have h := route_terminal_errors "claude" (Json.obj [("model", Json.str "m1")])
    none
    [⟨"claude", "https://a", "k1", none, 0⟩,
     ⟨"claude", "https://b", "k2", none, 1⟩]
    (fun _ => none) 0
  have h2 := (h.2 (fun p _ => rfl) (by simp)).2 (by norm_num [MAX_BODY_BYTES])
  simpa using h2

/-- C8: an unparseable body is a terminal parse error with no provider
attempt, distinct from the provider-exhaustion error; a body whose `model`
field is missing or not a string routes with model `"unknown"`; a body over
the 5 MiB ceiling is rejected with 413 before routing. -/
theorem input_precondition_policy (kind : String) (j : Json)
    (cid : Option String) (allProviders : List ResolvedProvider)
    (attempt : ResolvedProvider → Option HttpResponse)
    (bodyLen : Nat) (parsed : Option Json) :
    ((route_request kind none cid allProviders attempt).result =
        Except.error RouteError.parseError
      ∧ (route_request kind none cid allProviders attempt).attempts = []
      ∧ ∀ n m, RouteError.parseError ≠ RouteError.allFailed n m)
    ∧ (Json.asStr (jsonIndex j "model") = none →
        (route_request kind (some j) cid allProviders attempt).model =
          "unknown")
    ∧ (MAX_BODY_BYTES < bodyLen →
        handle_request bodyLen parsed kind cid allProviders attempt =
          error_response 413 "Request body too large") := by
  refine ⟨⟨rfl, rfl, ?_⟩, ?_, ?_⟩
  · intro n m h
    cases h
  · intro hm
    rw [route_request_model]
    unfold extract_model
    rw [hm]
    rfl
  · intro hlen
    unfold handle_request
    rw [if_pos hlen]

/-- Closed instance of `input_precondition_policy`. -/
theorem input_precondition_policy_witness :
    (route_request "claude" (none : Option Json) none
        ([] : List ResolvedProvider)
        (fun _ => (none : Option HttpResponse))).result =
      Except.error RouteError.parseError
    ∧ (route_request "claude" (some (Json.obj [("note", Json.str "x")])) none
        ([] : List ResolvedProvider)
        (fun _ => (none : Option HttpResponse))).model = "unknown"
    ∧ handle_request (MAX_BODY_BYTES + 1) none "claude" none
        ([] : List ResolvedProvider)
        (fun _ => (none : Option HttpResponse)) =
      error_response 413 "Request body too large" := by
  have h := input_precondition_policy "claude"
    (Json.obj [("note", Json.str "x")]) none ([] : List ResolvedProvider)
    (fun _ => (none : Option HttpResponse)) (MAX_BODY_BYTES + 1) none
  exact ⟨h.1.1, h.2.1 rfl, h.2.2 (Nat.lt_succ_self _)⟩

/-- C6: the outgoing upstream request contains no `host`, hop-by-hop, or
`content-length` header, its only `authorization` header is the injected
`Bearer` credential, and it always carries an `accept` header defaulting to
`application/json`; the forwarded response contains no hop-by-hop or
`content-length` header. -/
theorem header_forwarding_policy (inbound upstream : Headers)
    (api_key : String) :
    (∀ kv ∈ build_request_headers inbound api_key,
        kv.1 ∉ ["host", "connection", "proxy-connection", "keep-alive",
          "transfer-encoding", "upgrade", "te", "trailers", "content-length"])
    ∧ (build_request_headers inbound api_key).filter
        (fun kv => kv.1 == "authorization") =
      [("authorization", "Bearer " ++ api_key)]
    ∧ (lookupHeader (build_request_headers inbound api_key)
        "accept").isSome = true
    ∧ (lookupHeader inbound "accept" = none →
        lookupHeader (build_request_headers inbound api_key) "accept" =
          some "application/json")
    ∧ (∀ kv ∈ forward_response_headers upstream,
        hopByHop (asciiLower kv.1) = false
        ∧ (asciiLower kv.1 == "content-length") = false) := by
  have hsplit : ∀ kv ∈ build_request_headers inbound api_key,
      kv ∈ inbound.foldl requestHeaderStep []
      ∨ kv = ("authorization", "Bearer " ++ api_key)
      ∨ kv = ("accept", "application/json") := by
    intro kv hkv
    simp only [build_request_headers] at hkv
    by_cases hA : (lookupHeader (insertHeader
        (inbound.foldl requestHeaderStep []) "authorization"
        ("Bearer " ++ api_key)) "accept").isSome
    · rw [if_pos hA] at hkv
      rcases mem_insertHeader _ _ _ _ hkv with h | h
      · exact Or.inl h
      · exact Or.inr (Or.inl h)
    · rw [if_neg hA] at hkv
      rcases mem_insertHeader _ _ _ _ hkv with h | h
      · rcases mem_insertHeader _ _ _ _ h with h' | h'
        · exact Or.inl h'
        · exact Or.inr (Or.inl h')
      · exact Or.inr (Or.inr h)
  refine ⟨?_, ?_, ?_, ?_, ?_⟩
  · intro kv hkv hin
    rcases hsplit kv hkv with hb | rfl | rfl
    · obtain ⟨g1, g2, g3, g4⟩ :=
        build_fold_good inbound [] (by intro kv h; cases h) kv hb
      simp only [List.mem_cons, List.not_mem_nil, or_false] at hin
      rcases hin with h | h | h | h | h | h | h | h | h <;>
        rw [h] at g1 g3 g4 <;>
        first
          | exact absurd g1 (by decide)
          | exact absurd g3 (by decide)
          | exact absurd g4 (by decide)
    · exact absurd
        (show ("authorization" : String) ∈ ["host", "connection",
          "proxy-connection", "keep-alive", "transfer-encoding", "upgrade",
          "te", "trailers", "content-length"] from hin) (by decide)
    · exact absurd
        (show ("accept" : String) ∈ ["host", "connection",
          "proxy-connection", "keep-alive", "transfer-encoding", "upgrade",
          "te", "trailers", "content-length"] from hin) (by decide)
  · simp only [build_request_headers]
    by_cases hA : (lookupHeader (insertHeader
        (inbound.foldl requestHeaderStep []) "authorization"
        ("Bearer " ++ api_key)) "accept").isSome
    · rw [if_pos hA]
      exact filter_insertHeader_self _ _ _
    · rw [if_neg hA]
      rw [filter_insertHeader_other _ _ _ _ (by decide)]
      exact filter_insertHeader_self _ _ _
  · simp only [build_request_headers]
    by_cases hA : (lookupHeader (insertHeader
        (inbound.foldl requestHeaderStep []) "authorization"
        ("Bearer " ++ api_key)) "accept").isSome
    · rw [if_pos hA]
      exact hA
    · rw [if_neg hA]
      rw [lookupHeader_insertHeader_self]
      rfl
  · intro hnone
    have hbase : ∀ kv ∈ inbound.foldl requestHeaderStep [],
        (kv.1 == "accept") = false := by
      intro kv hkv
      rcases build_fold_mem inbound [] kv hkv with h | h
      · cases h
      · exact (lookupHeader_eq_none_iff inbound "accept").mp hnone kv h
    have hwa : lookupHeader (insertHeader
        (inbound.foldl requestHeaderStep []) "authorization"
        ("Bearer " ++ api_key)) "accept" = none := by
      rw [lookupHeader_eq_none_iff]
      intro kv hkv
      rcases mem_insertHeader _ _ _ _ hkv with h | h
      · exact hbase kv h
      · rw [h]
        exact (by decide : (("authorization" : String) == "accept") = false)
    simp only [build_request_headers]
    rw [if_neg (by rw [hwa]; simp)]
    exact lookupHeader_insertHeader_self _ _ _
  · intro kv hkv
    have := (List.mem_filter.mp hkv).2
    simp only [Bool.and_eq_true, Bool.not_eq_true'] at this
    exact ⟨this.1.2, this.2⟩

/-- Closed instance of `header_forwarding_policy`: the accept default is
injected. -/
theorem header_forwarding_policy_witness :
    lookupHeader (build_request_headers
        [("host", "proxy.local"), ("x-user", "alice")] "KEY") "accept" =
      some "application/json" := by
  have h := header_forwarding_policy
    [("host", "proxy.local"), ("x-user", "alice")] [] "KEY"
  exact h.2.2.2.1 (by decide)

/-- C7 (amended): when a gzip `content-encoding` header is present the
delivered body is the gzip-decompressed stream and no `content-encoding`
header with value `gzip` survives (a `content-encoding` header with another
value is forwarded unchanged); without a gzip `content-encoding` the body
bytes pass through unchanged. -/
theorem gzip_passthrough_policy (gunzip : List Nat → List Nat)
    (upstream : Headers) (body : List Nat) :
    (has_gzip_encoding upstream = true →
      deliver_body gunzip upstream body = gunzip body
      ∧ ∀ kv ∈ forward_response_headers upstream,
          ¬(asciiLower kv.1 = "content-encoding"
            ∧ asciiLower kv.2 = "gzip"))
    ∧ (has_gzip_encoding upstream = false →
        deliver_body gunzip upstream body = body) := by
  constructor
  · intro h
    refine ⟨by simp [deliver_body, h], ?_⟩
    rintro kv hkv ⟨h1, h2⟩
    have hp := (List.mem_filter.mp hkv).2
    simp only [Bool.and_eq_true, Bool.not_eq_true'] at hp
    have := hp.1.1
    simp only [Bool.and_eq_false_iff] at this
    rcases this with hc | hc
    · rw [beq_eq_false_iff_ne] at hc
      exact hc h1
    · rw [beq_eq_false_iff_ne] at hc
      exact hc h2
  · intro h
    simp [deliver_body, h]

/-- Closed instance of `gzip_passthrough_policy`: a gzip-encoded body is
decompressed. -/
theorem gzip_passthrough_policy_witness :
    deliver_body (fun _ => [7]) [("content-encoding", "gzip")] [1, 2] =
      [7] := by
  have h := gzip_passthrough_policy (fun _ => [7])
    [("content-encoding", "gzip")] [1, 2]
  exact (h.1 (by decide)).1

/-- C7 counterexample: an upstream response carrying both
`content-encoding: gzip` and `content-encoding: br` is delivered with the
`content-encoding: br` header still present, refuting the claim that no
`Content-Encoding` header at all appears in the delivered response. -/
theorem gzip_header_counterexample :
    has_gzip_encoding
        [("content-encoding", "gzip"), ("content-encoding", "br")] = true
    ∧ ("content-encoding", "br") ∈ forward_response_headers
        [("content-encoding", "gzip"), ("content-encoding", "br")] := by
  constructor
  · decide
  · decide

end CcProxy
